import Mathlib

/-!
Shallow embedding of a retrieval-augmented chat service consisting of a
document-ingestion facility (`document_service.py`) and a conversation
facility (`chat_service.py`), together with proofs about its behaviour.

External collaborators (the embedding model, the Chroma vector index's
nearest-neighbour machinery, the language model, the document loaders and
the text splitter) are abstracted as parameters; everything the repository
itself computes is embedded faithfully.
-/

namespace RagApp

/-- A document/chunk as this service sees it: page content plus the two
metadata fields the service reads and writes ("asset" and "source").
Each field is optional because loaders may produce documents without them
(they live in a Python metadata dict). -/
structure Doc where
  page_content : String
  asset : Option String
  source : Option String
  deriving Repr, DecidableEq

/-- The Chroma vector store's visible state: a list of (id, document)
entries, in insertion order. -/
abbrev VectorStore := List (String × Doc)

/-- The Chroma metadata filter `\x7b"asset": \x7b"$in": vals\x7d\x7d`: a document
passes iff its "asset" metadata field is present and its value is a member
of `vals`. -/
def assetInFilter (vals : List String) (d : Doc) : Bool :=
  match d.asset with
  | some a => vals.contains a
  | none => false

/-- Chroma similarity search, abstracted: among the index's documents that
pass the metadata filter, return the `k` with the highest similarity score
under `sim` (the embedding similarity metric, abstracted as an arbitrary
score function). -/
def similaritySearch (index : VectorStore) (sim : Doc → Nat) (k : Nat)
    (flt : Doc → Bool) : List Doc :=
  ((((index.map Prod.snd).filter flt).mergeSort
    (fun a b => Nat.ble (sim b) (sim a)))).take k

/-- The retriever built inside `setup_rag_chain`:
`as_retriever(search_kwargs=\x7b"k": 2, "filter": \x7b"asset": \x7b"$in": [asset_id]\x7d\x7d\x7d)`,
i.e. a top-2 similarity search filtered to the one-element asset set. -/
def retrieverSearch (index : VectorStore) (sim : Doc → Nat)
    (asset_id : String) : List Doc :=
  similaritySearch index sim 2 (assetInFilter [asset_id])

/-! ### Conversation facility (`chat_service.py`) -/

/-- One recorded message in a session's history: a LangChain
`HumanMessage` or `AIMessage` with its content. -/
inductive Turn where
  | human (content : String)
  | ai (content : String)
  deriving Repr, DecidableEq

/-- The per-session retrieval pipeline built by `setup_rag_chain`.  The only
service-owned state it closes over is the asset id that scopes its
retriever (everything else is prompt text and external model handles). -/
structure RagChain where
  asset_id : String
  deriving Repr, DecidableEq

/-- One entry of `ChatService.store`.  Python stores a dict whose keys
differ by code path: `start_chat` stores `asset_id`, `history` and
`rag_chain`, while `get_session_history` lazily stores only a `history`.
A missing key is `none`. -/
structure SessionData where
  asset_id : Option String
  history : List Turn
  rag_chain : Option RagChain
  deriving Repr, DecidableEq

/-- `ChatService.store`: the in-memory session map, modelled as an
association list where the most recent binding for a key shadows older
ones (as dict assignment overwrites). -/
abbrev Store := List (String × SessionData)

/-- `setup_rag_chain(asset_id)`: builds the pipeline whose retriever is
scoped to `asset_id` (see `retrieverSearch` for the retrieval stage). -/
def setup_rag_chain (asset_id : String) : RagChain :=
  { asset_id := asset_id }

/-- `get_session_history(session_id)`: if the id is absent, insert
`\x7b"history": ChatMessageHistory()\x7d` (a record with only an empty
history) under it; return the stored history together with the possibly
updated store. -/
def get_session_history (store : Store) (session_id : String) :
    Store × List Turn :=
  match store.lookup session_id with
  | some sd => (store, sd.history)
  | none => ((session_id, ⟨none, [], none⟩) :: store, [])

/-- `start_chat(chat_input)`: generate a chat id (`freshId`, standing for
`uuid.uuid4()`), store `\x7basset_id, history, rag_chain\x7d` under it and
return it.  No check that the asset exists anywhere is made. -/
def start_chat (store : Store) (asset_id : String) (freshId : String) :
    Store × String :=
  ((freshId, ⟨some asset_id, [], some (setup_rag_chain asset_id)⟩) :: store,
    freshId)

/-- The non-empty answer fragments actually yielded by `stream_generator`:
`if chunk.get('answer'): yield ...` skips increments without an "answer"
field (`none`) and those whose "answer" is the falsy empty string.  Each
stream increment is modelled by its optional "answer" field. -/
def emittedFragments (increments : List (Option String)) : List String :=
  (increments.filterMap id).filter (fun s => !(s == ""))

/-- The full assistant answer that `RunnableWithMessageHistory` records
(`output_messages_key="answer"`): the concatenation of every "answer"
field in the stream, in order. -/
def fullAnswer (increments : List (Option String)) : String :=
  (increments.filterMap id).foldr (fun a b => a ++ b) ""

/-- In-place mutation of one session's (shared) history object, as done by
the history-aware wrapper appending to the `ChatMessageHistory` returned
by `get_session_history`. -/
def updateHistory (store : Store) (session_id : String) (h : List Turn) :
    Store :=
  store.map (fun p => if p.1 = session_id then (p.1, { p.2 with history := h })
    else p)

/-- `chat_message(message_input)` together with the pipeline invocation it
triggers: reject unknown chat ids with HTTP 400 before touching history or
pipeline; otherwise stream the fragments and, once the invocation
completes, append the human message and the full assistant answer to the
session's history.  `increments` abstracts the external pipeline's stream
output (each increment's optional "answer" field). -/
def chat_message (store : Store) (chat_id message : String)
    (increments : List (Option String)) :
    Store × Except (Nat × String) (List String) :=
  if (store.lookup chat_id).isSome then
    let hist := (get_session_history store chat_id).2
    let store2 := updateHistory store chat_id
      (hist ++ [Turn.human message, Turn.ai (fullAnswer increments)])
    (store2, Except.ok (emittedFragments increments))
  else
    (store, Except.error (400, "Invalid chat ID"))

/-- `str(msg)` on a stored LangChain message: an opaque rendering
determined by the turn's role and content. -/
def renderTurn : Turn → String
  | .human c => "content=" ++ c ++ " role=human"
  | .ai c => "content=" ++ c ++ " role=ai"

/-- `chat_history(chat_id)`: reject unknown ids with HTTP 400; otherwise
render the stored messages.  The store is returned unchanged alongside the
result because the code only reads it. -/
def chat_history (store : Store) (chat_id : String) :
    Store × Except (Nat × String) (List String) :=
  match store.lookup chat_id with
  | none => (store, Except.error (400, "Invalid chat ID"))
  | some sd => (store, Except.ok (sd.history.map renderTurn))

/-! ### Ingestion facility (`document_service.py`) -/

/-- `str.rfind` on a character list: the index of the last occurrence, or
`-1` when the character does not occur (returned as an `Int`, as Python
does). -/
def rfind (c : Char) (l : List Char) : Int :=
  match (l.reverse.findIdx? (fun x => x == c)) with
  | some i => (l.length : Int) - 1 - i
  | none => -1

/-- The extension component of `os.path.splitext` (posix): the suffix from
the last '.' on, provided that dot lies after the last '/' and some
character strictly between them is not a dot (so leading dots of a file
name, as in ".bashrc", begin no extension). -/
def splitextExt (p : String) : String :=
  let l := p.data
  let sepIndex := rfind '/' l
  let dotIndex := rfind '.' l
  if sepIndex < dotIndex then
    if (List.range l.length).any (fun j =>
        decide (sepIndex < (j : Int)) && decide ((j : Int) < dotIndex) &&
          !(l.getD j '.' == '.')) then
      String.mk (l.drop dotIndex.toNat)
    else ""
  else ""

/-- The three format-specific loaders `_process_file` can construct. -/
inductive Loader where
  | textLoader (path : String)
  | pyPDFLoader (path : String)
  | docx2txtLoader (path : String)
  deriving Repr, DecidableEq

/-- Loader dispatch in `_process_file`: `.txt` → `TextLoader`, `.pdf` →
`PyPDFLoader`, `.doc`/`.docx` → `Docx2txtLoader`, anything else raises
`ValueError(f"Unsupported file type: \x7bfile_extension\x7d")`. -/
def chooseLoader (file_path : String) : Except String Loader :=
  let ext := splitextExt file_path
  if ext == ".txt" then Except.ok (Loader.textLoader file_path)
  else if ext == ".pdf" then Except.ok (Loader.pyPDFLoader file_path)
  else if [".doc", ".docx"].contains ext then
    Except.ok (Loader.docx2txtLoader file_path)
  else Except.error ("Unsupported file type: " ++ ext)

/-- `doc.metadata.update(metadata)` over the loaded documents, with
`metadata = \x7b"asset": asset_id, "source": file_path\x7d` (the dict is
non-empty, so the `if metadata:` guard always fires). -/
def updateMeta (asset_id file_path : String) (docs : List Doc) : List Doc :=
  docs.map (fun d => { d with asset := some asset_id, source := some file_path })

/-- `_process_file(file_path, metadata)`: choose the loader by extension,
load (`load` abstracts the external loader, which may fail), tag every
loaded document with the metadata, then split (`split` abstracts the
external `RecursiveCharacterTextSplitter`). -/
def process_file (file_path : String) (asset_id : String)
    (load : Loader → Except String (List Doc))
    (split : List Doc → List Doc) : Except String (List Doc) :=
  match chooseLoader file_path with
  | Except.error e => Except.error e
  | Except.ok loader =>
    match load loader with
    | Except.error e => Except.error e
    | Except.ok documents =>
      Except.ok (split (updateMeta asset_id file_path documents))

/-- The chunk ids `[f"\x7basset_id\x7d_\x7bi\x7d" for i in range(len(texts))]`. -/
def chunkIds (asset_id : String) (n : Nat) : List String :=
  (List.range n).map (fun i => asset_id ++ "_" ++ toString i)

/-- `save_to_chroma(chunks, ids)`: `add_documents` appends the id-keyed
chunks to the vector store. -/
def save_to_chroma (index : VectorStore) (chunks : List Doc)
    (uuids : List String) : VectorStore :=
  index ++ uuids.zip chunks

/-- `process_document(file_input)`: generate an asset id (`asset_id`
parameter, standing for `uuid.uuid4()`), process the file, build the
ordinal chunk ids, write to Chroma and return the asset id; any exception
is caught and re-raised as `HTTPException(status_code=400, detail=str(e))`.
The pair returned is the vector store after the call and the HTTP
result. -/
def process_document (index : VectorStore) (file_path : String)
    (asset_id : String) (load : Loader → Except String (List Doc))
    (split : List Doc → List Doc) :
    VectorStore × Except (Nat × String) String :=
  match process_file file_path asset_id load split with
  | Except.error e => (index, Except.error (400, e))
  | Except.ok texts =>
    (save_to_chroma index texts (chunkIds asset_id texts.length),
      Except.ok asset_id)

/-! ### Decimal representations: the f-string chunk ids are injective in the
ordinal -/

/-- Decode a decimal digit character back to its value. -/
def decodeDigit (c : Char) : Nat := c.toNat - 48

/-- Decode a decimal digit string back to the number it denotes. -/
def decodeDigits (l : List Char) : Nat :=
  l.foldl (fun acc c => 10 * acc + decodeDigit c) 0

theorem decodeDigit_digitChar : ∀ m < 10, decodeDigit (Nat.digitChar m) = m := by
  decide

theorem toDigitsCore_foldl : ∀ (fuel n : Nat) (acc : List Char), n < fuel →
    (Nat.toDigitsCore 10 fuel n acc).foldl
        (fun a c => 10 * a + decodeDigit c) 0 =
      acc.foldl (fun a c => 10 * a + decodeDigit c) n := by
  intro fuel
  induction fuel with
  | zero => intro n acc h; exact absurd h (Nat.not_lt_zero n)
  | succ f ih =>
    intro n acc h
    by_cases h10 : n / 10 = 0
    · have hmod : n % 10 = n := by omega
      simp only [Nat.toDigitsCore, h10, if_true, List.foldl_cons]
      rw [decodeDigit_digitChar (n % 10) (Nat.mod_lt n (by omega)), hmod]
      norm_num
    · have hlt : n / 10 < f := by omega
      simp only [Nat.toDigitsCore, h10, if_false, List.foldl_cons]
      rw [ih (n / 10) (Nat.digitChar (n % 10) :: acc) hlt, List.foldl_cons,
        decodeDigit_digitChar (n % 10) (Nat.mod_lt n (by omega))]
      congr 1
      omega

theorem decodeDigits_toDigits (n : Nat) :
    decodeDigits (Nat.toDigits 10 n) = n := by
  unfold Nat.toDigits decodeDigits
  rw [toDigitsCore_foldl (n + 1) n [] (Nat.lt_succ_self n)]
  rfl

theorem natRepr_inj {m n : Nat} (h : Nat.repr m = Nat.repr n) : m = n := by
  have hd : Nat.toDigits 10 m = Nat.toDigits 10 n := congrArg String.data h
  have h3 := congrArg decodeDigits hd
  rwa [decodeDigits_toDigits, decodeDigits_toDigits] at h3

theorem chunkId_inj (a : String) : Function.Injective
    (fun i : Nat => a ++ "_" ++ toString i) := by
  intro i j h
  have hd := congrArg String.data h
  simp only [String.data_append] at hd
  have h2 : (toString i : String).data = (toString j : String).data := by
    have := List.append_cancel_left (List.append_assoc _ _ _ ▸
      List.append_assoc _ _ _ ▸ hd)
    exact List.append_cancel_left this
  have h3 : (toString i : String) = toString j := by
    cases hti : (toString i : String) with
    | mk di =>
      cases htj : (toString j : String) with
      | mk dj =>
        rw [hti, htj] at h2
        simpa using congrArg String.mk h2
  exact natRepr_inj h3

theorem chunkIds_nodup (a : String) (n : Nat) : (chunkIds a n).Nodup :=
  (List.nodup_range n).map (chunkId_inj a)

/-! ### Helper lemmas about retrieval, the session store and streaming -/

theorem mem_retrieverSearch_asset (index : VectorStore) (sim : Doc → Nat)
    (A : String) (d : Doc) (hd : d ∈ retrieverSearch index sim A) :
    d.asset = some A := by
  have h1 : d ∈ ((index.map Prod.snd).filter (assetInFilter [A])).mergeSort
      (fun a b => Nat.ble (sim b) (sim a)) :=
    List.mem_of_mem_take hd
  have h2 : d ∈ (index.map Prod.snd).filter (assetInFilter [A]) :=
    (List.mergeSort_perm _ _).mem_iff.mp h1
  have h3 := (List.mem_filter.mp h2).2
  unfold assetInFilter at h3
  cases ha : d.asset with
  | none => rw [ha] at h3; simp at h3
  | some a =>
    rw [ha] at h3
    simp [List.contains] at h3
    exact congrArg some h3

theorem lookup_updateHistory_self (store : Store) (sid : String)
    (h : List Turn) :
    (updateHistory store sid h).lookup sid =
      (store.lookup sid).map (fun sd => { sd with history := h }) := by
  have hcons : ∀ (k : String) (v : SessionData) (rest : Store),
      updateHistory ((k, v) :: rest) sid h =
        (if k = sid then (k, { v with history := h }) else (k, v)) ::
          updateHistory rest sid h := fun _ _ _ => rfl
  induction store with
  | nil => rfl
  | cons p rest ih =>
    obtain ⟨k, v⟩ := p
    rw [hcons]
    by_cases hp : k = sid
    · subst hp
      rw [if_pos rfl, List.lookup_cons_self, List.lookup_cons_self]
      rfl
    · have hb : (sid == k) = false := by
        simp only [beq_eq_false_iff_ne, ne_eq]
        exact fun e => hp e.symm
      rw [if_neg hp, List.lookup_cons, List.lookup_cons, hb]
      exact ih

theorem chat_message_lookup (store : Store) (cid msg : String)
    (incs : List (Option String)) (sd : SessionData)
    (h : store.lookup cid = some sd) :
    ((chat_message store cid msg incs).1).lookup cid =
      some { sd with history :=
        sd.history ++ [Turn.human msg, Turn.ai (fullAnswer incs)] } ∧
    (chat_message store cid msg incs).2 = Except.ok (emittedFragments incs) := by
  constructor
  · simp only [chat_message, h, Option.isSome_some, if_true,
      get_session_history, lookup_updateHistory_self]
    rfl
  · simp only [chat_message, h, Option.isSome_some, if_true]

theorem foldr_append_filter_ne (l : List String) :
    ((l.filter (fun s => !(s == ""))).foldr (fun a b => a ++ b) "") =
      l.foldr (fun a b => a ++ b) "" := by
  induction l with
  | nil => rfl
  | cons s rest ih =>
    by_cases hs : s = ""
    · subst hs
      simp [List.filter, ih]
    · have hb : (!(s == "")) = true := by simp [hs]
      simp only [List.filter, hb, List.foldr_cons, ih]

theorem fullAnswer_eq_concat_emitted (incs : List (Option String)) :
    (emittedFragments incs).foldr (fun a b => a ++ b) "" = fullAnswer incs :=
  foldr_append_filter_ne (incs.filterMap id)

theorem emittedFragments_ne_nil (incs : List (Option String))
    (h : fullAnswer incs ≠ "") : emittedFragments incs ≠ [] := by
  intro he
  apply h
  rw [← fullAnswer_eq_concat_emitted, he]
  rfl

theorem mem_emittedFragments_ne (incs : List (Option String)) (f : String)
    (hf : f ∈ emittedFragments incs) : f ≠ "" := by
  have h2 := (List.mem_filter.mp hf).2
  simpa using h2

/-! ### The claims -/

/-- C1: the retrieval stage of a session scoped to asset id `A` requests
exactly the top-2 nearest chunks under the filter requiring the chunk's
"asset" metadata to lie in the one-element set containing `A`; hence every
retrieved chunk is tagged with `A`, and no chunk tagged with a different
asset id `B` is ever returned, regardless of embedding similarity. -/
theorem retrieval_scoped_to_asset (index : VectorStore) (sim : Doc → Nat)
    (A : String) :
    retrieverSearch index sim A =
      (((index.map Prod.snd).filter (assetInFilter [A])).mergeSort
        (fun a b => Nat.ble (sim b) (sim a))).take 2 ∧
    (∀ d ∈ retrieverSearch index sim A, d.asset = some A) ∧
    (∀ B, B ≠ A → ∀ d ∈ retrieverSearch index sim A, d.asset ≠ some B) := by
  refine ⟨rfl, fun d hd => mem_retrieverSearch_asset index sim A d hd, ?_⟩
  intro B hB d hd hBa
  have hA := mem_retrieverSearch_asset index sim A d hd
  rw [hA] at hBa
  exact hB (Option.some.inj hBa).symm

theorem retrieval_scoped_to_asset_witness :
    (Doc.mk "alpha text" (some "A") none).asset = some "A" :=
  (retrieval_scoped_to_asset
    [("A_0", ⟨"alpha text", some "A", none⟩),
     ("B_0", ⟨"beta text", some "B", none⟩)] (fun _ => 0) "A").2.1
    ⟨"alpha text", some "A", none⟩ (by
      unfold retrieverSearch similaritySearch
      simp only [List.map_cons, List.map_nil]
      rw [show (List.filter (assetInFilter ["A"])
          [(⟨"alpha text", some "A", none⟩ : Doc), ⟨"beta text", some "B", none⟩]) =
        [⟨"alpha text", some "A", none⟩] from by decide]
      rw [List.mergeSort_singleton]
      decide)

/-- C2: posting a message to a known session appends exactly two turns to
that session's history — the human turn then the assistant turn, after all
prior turns — and the human turn's content is the submitted message
verbatim. -/
theorem message_appends_two_turns (store : Store) (cid msg : String)
    (incs : List (Option String)) (sd : SessionData)
    (h : store.lookup cid = some sd) :
    ((chat_message store cid msg incs).1).lookup cid =
      some { sd with history :=
        sd.history ++ [Turn.human msg, Turn.ai (fullAnswer incs)] } :=
  (chat_message_lookup store cid msg incs sd h).1

theorem message_appends_two_turns_witness :
    ((chat_message [("c", ⟨some "a", [Turn.human "old", Turn.ai "prev"],
        some ⟨"a"⟩⟩)] "c" "hi" [some "ans"]).1).lookup "c" =
      some ⟨some "a", [Turn.human "old", Turn.ai "prev"] ++
        [Turn.human "hi", Turn.ai (fullAnswer [some "ans"])], some ⟨"a"⟩⟩ :=
  message_appends_two_turns _ "c" "hi" [some "ans"]
    ⟨some "a", [Turn.human "old", Turn.ai "prev"], some ⟨"a"⟩⟩ rfl

/-- C3: for a message posted to a known session whose answer is non-empty,
the streamed output is one or more non-empty fragments (increments with a
missing or empty "answer" field are skipped), and the concatenation of the
emitted fragments equals the assistant answer recorded in that session's
history. -/
theorem stream_concat_equals_answer (store : Store) (cid msg : String)
    (incs : List (Option String)) (sd : SessionData)
    (h : store.lookup cid = some sd) (hne : fullAnswer incs ≠ "") :
    ∃ frags,
      (chat_message store cid msg incs).2 = Except.ok frags ∧
      frags ≠ [] ∧
      (∀ f ∈ frags, f ≠ "") ∧
      ((chat_message store cid msg incs).1).lookup cid =
        some { sd with history := sd.history ++
          [Turn.human msg, Turn.ai (frags.foldr (fun a b => a ++ b) "")] } := by
  refine ⟨emittedFragments incs, (chat_message_lookup store cid msg incs sd h).2,
    emittedFragments_ne_nil incs hne,
    fun f hf => mem_emittedFragments_ne incs f hf, ?_⟩
  rw [fullAnswer_eq_concat_emitted]
  exact (chat_message_lookup store cid msg incs sd h).1

theorem stream_concat_equals_answer_witness :
    fullAnswer [some "an", none, some "", some "swer"] ≠ "" ∧
    ∃ frags,
      (chat_message [("c", ⟨some "a", [], some ⟨"a"⟩⟩)] "c" "q"
        [some "an", none, some "", some "swer"]).2 = Except.ok frags ∧
      frags ≠ [] ∧
      (∀ f ∈ frags, f ≠ "") ∧
      ((chat_message [("c", ⟨some "a", [], some ⟨"a"⟩⟩)] "c" "q"
          [some "an", none, some "", some "swer"]).1).lookup "c" =
        some ⟨some "a", [] ++
          [Turn.human "q", Turn.ai (frags.foldr (fun a b => a ++ b) "")],
          some ⟨"a"⟩⟩ :=
  ⟨by decide, stream_concat_equals_answer _ "c" "q" _
    ⟨some "a", [], some ⟨"a"⟩⟩ rfl (by decide)⟩

/-- C4: the message and history operations accept exactly the session ids
present in the store — in particular any id just returned by `start_chat` —
and reject every other string with an invalid-identifier HTTP 400 error,
leaving the store untouched and consulting neither pipeline output nor
history. -/
theorem session_id_validation (store : Store) (s msg : String)
    (incs : List (Option String)) :
    (store.lookup s = none →
      chat_message store s msg incs =
        (store, Except.error (400, "Invalid chat ID")) ∧
      chat_history store s = (store, Except.error (400, "Invalid chat ID"))) ∧
    ((store.lookup s).isSome →
      (∃ frags, (chat_message store s msg incs).2 = Except.ok frags) ∧
      (∃ rendered, (chat_history store s).2 = Except.ok rendered)) ∧
    (∀ asset freshId,
      ∃ frags, (chat_message (start_chat store asset freshId).1
        (start_chat store asset freshId).2 msg incs).2 = Except.ok frags) := by
  refine ⟨?_, ?_, ?_⟩
  · intro h
    constructor
    · simp only [chat_message, h, Option.isSome_none, Bool.false_eq_true,
        if_false]
    · unfold chat_history
      rw [h]
  · intro hs
    obtain ⟨sd, h⟩ := Option.isSome_iff_exists.mp hs
    constructor
    · exact ⟨emittedFragments incs, by simp only [chat_message, h,
        Option.isSome_some, if_true]⟩
    · refine ⟨sd.history.map renderTurn, ?_⟩
      unfold chat_history
      rw [h]
  · intro asset freshId
    refine ⟨emittedFragments incs, ?_⟩
    have h : ((start_chat store asset freshId).1).lookup
        (start_chat store asset freshId).2 =
        some ⟨some asset, [], some (setup_rag_chain asset)⟩ := by
      simp [start_chat, List.lookup_cons_self]
    simp only [chat_message, h, Option.isSome_some, if_true]

theorem session_id_validation_witness :
    chat_message [] "nope" "hi" [] = ([], Except.error (400, "Invalid chat ID")) ∧
    chat_history [] "nope" = ([], Except.error (400, "Invalid chat ID")) :=
  (session_id_validation [] "nope" "hi" []).1 rfl

/-- C8: `start_chat` succeeds for every asset id string, existing or not:
it stores, under the freshly generated chat id, a record holding that
asset id, an empty history and a pipeline scoped to that asset id, and
returns the chat id.  No check against the vector index occurs (the store
update does not depend on any index at all). -/
theorem start_chat_always_succeeds (store : Store) (asset_id freshId : String) :
    start_chat store asset_id freshId =
      ((freshId, ⟨some asset_id, [], some (setup_rag_chain asset_id)⟩) :: store,
        freshId) ∧
    ((start_chat store asset_id freshId).1).lookup freshId =
      some ⟨some asset_id, [], some (setup_rag_chain asset_id)⟩ ∧
    (start_chat store asset_id freshId).2 = freshId := by
  refine ⟨rfl, ?_, rfl⟩
  simp [start_chat, List.lookup_cons_self]

/-- C9: the internal history resolver never fails: an absent session id is
given a fresh record holding only an empty history (and no asset id, no
pipeline), mutating the store; a present id resolves to its stored
history with the store untouched. -/
theorem get_session_history_total (store : Store) (sid : String) :
    (store.lookup sid = none →
      get_session_history store sid = ((sid, ⟨none, [], none⟩) :: store, []) ∧
      ((get_session_history store sid).1).lookup sid =
        some ⟨none, [], none⟩) ∧
    (∀ sd, store.lookup sid = some sd →
      get_session_history store sid = (store, sd.history)) := by
  constructor
  · intro h
    unfold get_session_history
    rw [h]
    exact ⟨rfl, by simp [List.lookup_cons_self]⟩
  · intro sd h
    unfold get_session_history
    rw [h]

theorem get_session_history_total_witness :
    get_session_history [] "s1" = (("s1", ⟨none, [], none⟩) :: [], []) ∧
    ((get_session_history [] "s1").1).lookup "s1" = some ⟨none, [], none⟩ :=
  (get_session_history_total [] "s1").1 rfl

/-- C10: the history-retrieval operation is read-only: for a known chat id
it returns the rendered history and leaves the session store entirely
unchanged. -/
theorem chat_history_read_only (store : Store) (cid : String)
    (sd : SessionData) (h : store.lookup cid = some sd) :
    (chat_history store cid).1 = store ∧
    (chat_history store cid).2 = Except.ok (sd.history.map renderTurn) := by
  unfold chat_history
  rw [h]
  exact ⟨rfl, rfl⟩

theorem chat_history_read_only_witness :
    (chat_history [("c", ⟨some "a", [Turn.human "hi"], some ⟨"a"⟩⟩)] "c").1 =
      [("c", ⟨some "a", [Turn.human "hi"], some ⟨"a"⟩⟩)] ∧
    (chat_history [("c", ⟨some "a", [Turn.human "hi"], some ⟨"a"⟩⟩)] "c").2 =
      Except.ok ([Turn.human "hi"].map renderTurn) :=
  chat_history_read_only _ "c" ⟨some "a", [Turn.human "hi"], some ⟨"a"⟩⟩ rfl

/-- C5: a file path whose extension is outside the allow-list fails with
the unsupported-type error and performs no writes to the vector index: the
index state is unchanged by the failed call. -/
theorem unsupported_extension_no_writes (index : VectorStore)
    (file_path asset_id : String) (load : Loader → Except String (List Doc))
    (split : List Doc → List Doc)
    (h : splitextExt file_path ∉ [".txt", ".pdf", ".doc", ".docx"]) :
    process_document index file_path asset_id load split =
      (index, Except.error (400,
        "Unsupported file type: " ++ splitextExt file_path)) := by
  simp only [List.mem_cons, List.mem_singleton, not_or] at h
  obtain ⟨h1, h2, h3, h4⟩ := h
  have hcl : chooseLoader file_path =
      Except.error ("Unsupported file type: " ++ splitextExt file_path) := by
    unfold chooseLoader
    simp [h1, h2, h3, h4]
  unfold process_document process_file
  rw [hcl]

theorem unsupported_extension_no_writes_witness :
    splitextExt "./data/report.csv" ∉ [".txt", ".pdf", ".doc", ".docx"] ∧
    process_document [] "./data/report.csv" "aid"
        (fun _ => Except.ok []) (fun d => d) =
      ([], Except.error (400,
        "Unsupported file type: " ++ splitextExt "./data/report.csv")) :=
  ⟨by decide, unsupported_extension_no_writes [] "./data/report.csv" "aid"
    (fun _ => Except.ok []) (fun d => d) (by decide)⟩

/-- C6: a successful ingestion producing `n` chunks appends those chunks to
the index under the ids `assetId_0 .. assetId_(n-1)` — unique, contiguous,
starting at zero — and every chunk carries metadata asset = the generated
asset id (the same for all chunks of the call) and source = the input
path.  The splitter is assumed to propagate each parent document's
metadata to its chunks (`hsplit`), which is how the external
`RecursiveCharacterTextSplitter` behaves. -/
theorem ingestion_chunk_metadata_ids (index : VectorStore)
    (file_path asset_id : String) (load : Loader → Except String (List Doc))
    (split : List Doc → List Doc) (texts : List Doc)
    (hsplit : ∀ docs, ∀ d ∈ split docs,
      ∃ d0 ∈ docs, d.asset = d0.asset ∧ d.source = d0.source)
    (hok : process_file file_path asset_id load split = Except.ok texts) :
    process_document index file_path asset_id load split =
      (index ++ (chunkIds asset_id texts.length).zip texts,
        Except.ok asset_id) ∧
    (∀ d ∈ texts, d.asset = some asset_id ∧ d.source = some file_path) ∧
    chunkIds asset_id texts.length =
      (List.range texts.length).map (fun i => asset_id ++ "_" ++ toString i) ∧
    (chunkIds asset_id texts.length).Nodup ∧
    (chunkIds asset_id texts.length).length = texts.length := by
  refine ⟨?_, ?_, rfl, chunkIds_nodup asset_id texts.length, by simp [chunkIds]⟩
  · unfold process_document
    rw [hok]
    rfl
  · intro d hd
    unfold process_file at hok
    cases hcl : chooseLoader file_path with
    | error e => rw [hcl] at hok; cases hok
    | ok loader =>
      rw [hcl] at hok
      dsimp only at hok
      cases hld : load loader with
      | error e => rw [hld] at hok; cases hok
      | ok documents =>
        rw [hld] at hok
        dsimp only at hok
        have htexts : texts = split (updateMeta asset_id file_path documents) :=
          (Except.ok.inj hok).symm
        rw [htexts] at hd
        obtain ⟨d0, hd0, ha, hs⟩ := hsplit _ d hd
        unfold updateMeta at hd0
        obtain ⟨d1, _, hd1⟩ := List.mem_map.mp hd0
        subst hd1
        exact ⟨ha, hs⟩

theorem ingestion_chunk_metadata_ids_witness :
    process_document [] "doc.txt" "aid"
        (fun _ => Except.ok [⟨"hello world", none, none⟩]) (fun d => d) =
      ([] ++ (chunkIds "aid"
          ([(⟨"hello world", some "aid", some "doc.txt"⟩ : Doc)].length)).zip
          [⟨"hello world", some "aid", some "doc.txt"⟩],
        Except.ok "aid") :=
  (ingestion_chunk_metadata_ids [] "doc.txt" "aid"
    (fun _ => Except.ok [⟨"hello world", none, none⟩]) (fun d => d)
    [⟨"hello world", some "aid", some "doc.txt"⟩]
    (fun _ d hd => ⟨d, hd, rfl, rfl⟩) rfl).1

/-- C7 counterexample: an upstream loader failure during ingestion of a
supported extension is caught and reported with HTTP status 400, which is
not a 5xx status — refuting the claim that such errors surface as 5xx. -/
theorem ingestion_error_status_counterexample :
    (process_document [] "a.pdf" "aid"
        (fun _ => Except.error "parse failure") (fun d => d)).2 =
      Except.error (400, "parse failure") ∧
    ¬(500 ≤ 400 ∧ 400 < 600) := by
  exact ⟨rfl, by decide⟩

/-- C7 amended: every upstream/processing error during document ingestion —
unsupported type, loader/parse failure, or any other exception raised
inside `process_document` — is caught and reported to the caller as an
HTTP 400 client error carrying the original message (not a 5xx status). -/
theorem ingestion_errors_reported_400 (index : VectorStore)
    (file_path asset_id : String) (load : Loader → Except String (List Doc))
    (split : List Doc → List Doc) (e : String)
    (herr : process_file file_path asset_id load split = Except.error e) :
    process_document index file_path asset_id load split =
      (index, Except.error (400, e)) := by
  unfold process_document
  rw [herr]

theorem ingestion_errors_reported_400_witness :
    process_file "a.pdf" "aid" (fun _ => Except.error "parse failure")
        (fun d => d) = Except.error "parse failure" ∧
    process_document [] "a.pdf" "aid" (fun _ => Except.error "parse failure")
        (fun d => d) = ([], Except.error (400, "parse failure")) :=
  ⟨rfl, ingestion_errors_reported_400 [] "a.pdf" "aid"
    (fun _ => Except.error "parse failure") (fun d => d) "parse failure" rfl⟩

end RagApp
